import Mathlib

/-!
# Elasticsearch sink client: bulk write and stop

Shallow embedding of `pkg/sink/elasticsearch/client.go`
(`ClientSet.BulkIndex`, `ClientSet.Stop`).

Collaborators that live outside that file are parameters of the model,
gathered in `Env`: the event interface (`Header`, `String`), the pattern
resolver `runtime.PatternFormat`, the bulk service call `req.Do`, and
`json.Marshal` on the response.  The codec is a field of `ClientSet`, as in
the source.  Every call to the resolver, the codec and `req.Do` is
recorded, in program order, in a list of `Call`s returned next to the result.
-/

namespace Elasticsearch

/-! ## Errors (`github.com/pkg/errors`) -/

/-- Go error values as this file sees them.  `leaf` is an error produced by a
collaborator, `withMessage` is the value built by `errors.WithMessagef`,
`fundamental` the value built by `errors.Errorf`. -/
inductive GoError where
  | leaf (msg : String)
  | withMessage (cause : GoError) (msg : String)
  | fundamental (msg : String)
  deriving DecidableEq, Repr

namespace GoError

/-- The `Error()` method: `withMessage` prints `msg + ": " + cause.Error()`. -/
def Error : GoError → String
  | leaf msg => msg
  | withMessage cause msg => msg ++ ": " ++ cause.Error
  | fundamental msg => msg

/-- The cause held by a wrapping error, if any. -/
def cause? : GoError → Option GoError
  | withMessage cause _ => some cause
  | _ => none

end GoError

deriving instance DecidableEq for Except

/-- Substring test on Go strings: `needle` occurs contiguously in `hay`. -/
def Contains (hay needle : String) : Prop := needle.data <:+: hay.data

instance (hay needle : String) : Decidable (Contains hay needle) := by
  unfold Contains; infer_instance

/-! ## Data model -/

/-- Payload bytes (`[]byte`), one number per byte. -/
abbrev Bytes := List Nat

/-- Modelled from the spec: the `Config` type is declared outside `client.go`;
these are the fields `client.go` reads (connection options, index template,
document-id template, optional explicit document type). -/
structure Config where
  Hosts : List String := []
  UserName : String := ""
  Password : String := ""
  Schema : String := ""
  Sniff : Option Bool := none
  Gzip : Option Bool := none
  Index : String := ""
  Etype : String := ""
  DocumentId : String := ""
  deriving DecidableEq, Repr

/-- One operation of a bulk request, as built by
`es.NewBulkIndexRequest().Index(idx).Doc(data)` and the optional `Type` (here `Typ`) and
`Id` setters; an unset field is `none`. -/
structure BulkIndexRequest where
  Index : String
  Doc : Bytes
  Typ : Option String := none
  Id : Option String := none
  deriving DecidableEq, Repr

/-- Per-item result of a bulk response (the part of the library type that the
statements below quantify over). -/
structure BulkResponseItem where
  Action : String
  Index : String
  Id : String
  Status : Int
  Result : String
  deriving DecidableEq, Repr

/-- The bulk response: the top-level error flag and the per-item results. -/
structure BulkResponse where
  Took : Int
  Errors : Bool
  Items : List BulkResponseItem
  deriving DecidableEq, Repr

/-- The client of `client.go`.  `cli` is the connection handle (`none` is the
nil pointer), `Conn` being the state of the underlying connection. -/
structure ClientSet (Conn Ev : Type) where
  Version : String := ""
  config : Config
  cli : Option Conn
  codec : Ev → Except GoError Bytes
  indexMatcher : List (List String)
  documentIdMatcher : List (List String)

/-- Collaborators of `BulkIndex` that are defined outside `client.go`.
`bulkDo` is `req.Do(ctx)` and returns the Go pair `(ret, err)`; `marshal` is
`json.Marshal(ret)` with its output read as text, also a Go pair. -/
structure Env (Ev Hdr Ctx : Type) where
  header : Ev → Hdr
  string : Ev → String
  patternFormat : Hdr → String → List (List String) → Except GoError String
  bulkDo : Ctx → List BulkIndexRequest → Option BulkResponse × Option GoError
  marshal : BulkResponse → String × Option GoError

/-- A recorded call to a collaborator. -/
inductive Call (Ev Hdr : Type) where
  | patternFormat (h : Hdr) (pattern : String) (matcher : List (List String))
  | encode (ev : Ev)
  | bulkDo (req : List BulkIndexRequest)
  deriving DecidableEq

/-- How a call of `BulkIndex` ends: it returns an `error` (`none` is nil), or it
dereferences a nil response (`ret.Errors` with `ret == nil`). -/
inductive Outcome where
  | returned (err : Option GoError)
  | nilDeref
  deriving DecidableEq, Repr

/-! ## `BulkIndex` -/

section BulkIndex

variable {Conn Ev Hdr Ctx : Type}

/-- The body of the `for` loop of `BulkIndex` for one event: the calls made, and
either the error returned from `BulkIndex` or the operation handed to
`req.Add`. -/
def loopBody (c : ClientSet Conn Ev) (env : Env Ev Hdr Ctx) (event : Ev) :
    List (Call Ev Hdr) × Except GoError BulkIndexRequest :=
  let header := env.header event
  -- select index
  match env.patternFormat header c.config.Index c.indexMatcher with
  | .error err =>
    ([.patternFormat header c.config.Index c.indexMatcher],
      .error (.withMessage err "select index pattern error"))
  | .ok idx =>
    match c.codec event with
    | .error err =>
      ([.patternFormat header c.config.Index c.indexMatcher, .encode event],
        .error (.withMessage err ("codec encode event: " ++ env.string event ++ " error")))
    | .ok data =>
      let bulkIndexRequest : BulkIndexRequest := { Index := idx, Doc := data }
      let bulkIndexRequest :=
        if c.config.Etype.length > 0 then
          { bulkIndexRequest with Typ := some c.config.Etype }
        else bulkIndexRequest
      if c.config.DocumentId ≠ "" then
        match env.patternFormat header c.config.DocumentId c.documentIdMatcher with
        | .error err =>
          ([.patternFormat header c.config.Index c.indexMatcher, .encode event,
            .patternFormat header c.config.DocumentId c.documentIdMatcher],
            .error (.withMessage err ("format documentId " ++ c.config.DocumentId ++ " failed")))
        | .ok id =>
          ([.patternFormat header c.config.Index c.indexMatcher, .encode event,
            .patternFormat header c.config.DocumentId c.documentIdMatcher],
            .ok { bulkIndexRequest with Id := some id })
      else
        ([.patternFormat header c.config.Index c.indexMatcher, .encode event],
          .ok bulkIndexRequest)

/-- The `for` loop of `BulkIndex` over the remaining events, with the request
accumulated so far (`req`) and the calls made so far (`tr`). -/
def loop (c : ClientSet Conn Ev) (env : Env Ev Hdr Ctx) :
    List Ev → List BulkIndexRequest → List (Call Ev Hdr) →
      List (Call Ev Hdr) × Except GoError (List BulkIndexRequest)
  | [], req, tr => (tr, .ok req)
  | event :: rest, req, tr =>
    match loopBody c env event with
    | (calls, .error err) => (tr ++ calls, .error err)
    | (calls, .ok bulkIndexRequest) =>
      loop c env rest (req ++ [bulkIndexRequest]) (tr ++ calls)

/-- Assembly of the bulk request: `req := c.cli.Bulk()` followed by the loop. -/
def assemble (c : ClientSet Conn Ev) (env : Env Ev Hdr Ctx) (batch : List Ev) :
    List (Call Ev Hdr) × Except GoError (List BulkIndexRequest) :=
  loop c env batch [] []

/-- The function `ClientSet.BulkIndex`: the calls made, in order, and how the
call ends. -/
def BulkIndex (c : ClientSet Conn Ev) (env : Env Ev Hdr Ctx) (ctx : Ctx) (batch : List Ev) :
    List (Call Ev Hdr) × Outcome :=
  match assemble c env batch with
  | (tr, .error err) => (tr, .returned (some err))
  | (tr, .ok req) =>
    match env.bulkDo ctx req with
    | (_, some err) => (tr ++ [.bulkDo req], .returned (some err))
    | (none, none) => (tr ++ [.bulkDo req], .nilDeref)
    | (some ret, none) =>
      if ret.Errors then
        let out := (env.marshal ret).1
        (tr ++ [.bulkDo req],
          .returned (some (.fundamental ("request to elasticsearch response error: " ++ out))))
      else
        (tr ++ [.bulkDo req], .returned none)

/-- The requests handed to `req.Do`, in order. -/
def submitted : List (Call Ev Hdr) → List (List BulkIndexRequest)
  | [] => []
  | .bulkDo req :: tr => req :: submitted tr
  | _ :: tr => submitted tr

/-- The arguments of the `PatternFormat` calls, in order. -/
def resolverCalls : List (Call Ev Hdr) → List (Hdr × String × List (List String))
  | [] => []
  | .patternFormat h p m :: tr => (h, p, m) :: resolverCalls tr
  | _ :: tr => resolverCalls tr

/-- The events passed to `codec.Encode`, in order. -/
def encodeCalls : List (Call Ev Hdr) → List Ev
  | [] => []
  | .encode ev :: tr => ev :: encodeCalls tr
  | _ :: tr => encodeCalls tr

/-! ### The steps of a batch, in the order of the specification -/

/-- A step of the batch: index resolution, encoding or document-id resolution
of one event. -/
inductive Step (Ev : Type) where
  | index (ev : Ev)
  | encode (ev : Ev)
  | docId (ev : Ev)
  deriving DecidableEq

/-- The steps of one event: index resolution, encoding, and document-id
resolution when a document-id template is configured. -/
def stepsOf (c : ClientSet Conn Ev) (ev : Ev) : List (Step Ev) :=
  if c.config.DocumentId ≠ "" then [.index ev, .encode ev, .docId ev]
  else [.index ev, .encode ev]

/-- The interleaved order: the steps of event 1, then those of event 2, and so
on. -/
def interleaved (c : ClientSet Conn Ev) (batch : List Ev) : List (Step Ev) :=
  batch.flatMap (stepsOf c)

/-- The collaborator call a step consists of. -/
def Step.call (c : ClientSet Conn Ev) (env : Env Ev Hdr Ctx) : Step Ev → Call Ev Hdr
  | .index ev => .patternFormat (env.header ev) c.config.Index c.indexMatcher
  | .encode ev => .encode ev
  | .docId ev => .patternFormat (env.header ev) c.config.DocumentId c.documentIdMatcher

/-- The error of a step as `BulkIndex` reports it (the collaborator error
wrapped by `errors.WithMessagef`), `none` when the step succeeds. -/
def Step.failure (c : ClientSet Conn Ev) (env : Env Ev Hdr Ctx) : Step Ev → Option GoError
  | .index ev =>
    match env.patternFormat (env.header ev) c.config.Index c.indexMatcher with
    | .error err => some (.withMessage err "select index pattern error")
    | .ok _ => none
  | .encode ev =>
    match c.codec ev with
    | .error err =>
      some (.withMessage err ("codec encode event: " ++ env.string ev ++ " error"))
    | .ok _ => none
  | .docId ev =>
    match env.patternFormat (env.header ev) c.config.DocumentId c.documentIdMatcher with
    | .error err =>
      some (.withMessage err ("format documentId " ++ c.config.DocumentId ++ " failed"))
    | .ok _ => none

/-- The event a step encodes, for an encoding step. -/
def Step.encoded? : Step Ev → Option Ev
  | .encode ev => some ev
  | _ => none

/-- The scan of the specification: walk the steps in order up to the first one
that fails; the result is the steps walked (the failing one included) and that
step's error, or `none` when every step succeeds. -/
def firstFail (c : ClientSet Conn Ev) (env : Env Ev Hdr Ctx) :
    List (Step Ev) → Option (List (Step Ev) × GoError)
  | [] => none
  | s :: rest =>
    match s.failure c env with
    | some e => some ([s], e)
    | none =>
      match firstFail c env rest with
      | some (p, e) => some (s :: p, e)
      | none => none

end BulkIndex

/-! ## `Stop` -/

/-- The function `ClientSet.Stop`: `if c.cli != nil { c.cli.Stop() }`.
`cliStop` is the effect of the library call on the connection; the second
component counts the `c.cli.Stop()` calls made. -/
def ClientSet.Stop {Conn Ev : Type} (cliStop : Conn → Conn) (c : ClientSet Conn Ev) :
    ClientSet Conn Ev × Nat :=
  match c.cli with
  | some conn => ({ c with cli := some (cliStop conn) }, 1)
  | none => (c, 0)

/-- Modelled from the spec: the connection type `es.Client` and its `Stop` are
declared outside `client.go`.  `Stop()` releases the underlying connection and
is safe to call when the connection is already stopped: a running connection is
released and marked stopped, a stopped one is left untouched.  `releases`
counts the releases performed on the connection. -/
structure EsClient where
  running : Bool
  releases : Nat
  deriving DecidableEq, Repr

/-- Modelled from the spec: the `Stop` of the connection (see `EsClient`). -/
def EsClient.Stop (cl : EsClient) : EsClient :=
  if cl.running then { running := false, releases := cl.releases + 1 } else cl

/-- The number of releases performed on the connection of a client; a client
without connection has none. -/
def ClientSet.releases {Ev : Type} (c : ClientSet EsClient Ev) : Nat :=
  match c.cli with
  | some conn => conn.releases
  | none => 0

/-! ## Concrete instances used to exercise the statements -/

/-- Sample collaborators.  Events and headers are numbers whose binary digits
say which steps fail: digit 1 the resolution under the index rules `T`, digit 2
the encoding (see `demoCodec`), digit 4 the resolution under the document-id
rules `D`.  A successful resolution appends `-a` (headers below 8) or `-b` to
the template.  The transport outcome is chosen by the context: `0` a clean
response, `1` a response with the error flag set, `2` a transport error that
comes with a response, `3` a transport error without response, anything else a
nil response without error. -/
def demoEnv : Env Nat Nat Nat where
  header := fun ev => ev
  string := fun ev => if ev = 2 then "E2" else "E"
  patternFormat := fun h p m =>
    if (m = [["T", "t"]] ∧ h % 2 = 1) ∨ (m = [["D", "d"]] ∧ h / 4 % 2 = 1) then
      .error (.leaf "x")
    else .ok (p ++ (if h < 8 then "-a" else "-b"))
  bulkDo := fun ctx req =>
    if ctx = 0 then
      (some { Took := 1, Errors := false,
              Items := req.map fun op => ⟨"index", op.Index, "1", 201, "created"⟩ }, none)
    else if ctx = 1 then
      (some { Took := 1, Errors := true,
              Items := req.map fun op => ⟨"index", op.Index, "1", 409, "conflict"⟩ }, none)
    else if ctx = 2 then
      (some { Took := 0, Errors := false, Items := [] }, some (.leaf "context canceled"))
    else if ctx = 3 then (none, some (.leaf "context canceled"))
    else (none, none)
  marshal := fun ret => (if ret.Errors then "errors=true" else "errors=false", none)

/-- A sample codec: fails on the events whose digit 2 is set, otherwise yields
the one-byte payload holding the event number. -/
def demoCodec (ev : Nat) : Except GoError Bytes :=
  if ev / 2 % 2 = 1 then .error (.leaf "bad") else .ok [ev]

/-- A sample client with index template `T` and no document-id template. -/
def demoClient : ClientSet Nat Nat where
  config := { Index := "T" }
  cli := some 0
  codec := demoCodec
  indexMatcher := [["T", "t"]]
  documentIdMatcher := []

/-- A sample client with index template `T` and document-id template `D`. -/
def demoClientId : ClientSet Nat Nat where
  config := { Index := "T", DocumentId := "D" }
  cli := some 0
  codec := demoCodec
  indexMatcher := [["T", "t"]]
  documentIdMatcher := [["D", "d"]]

/-- A sample client whose connection was never established. -/
def demoClientNil : ClientSet EsClient Nat where
  config := { Index := "T" }
  cli := none
  codec := demoCodec
  indexMatcher := [["T", "t"]]
  documentIdMatcher := []

/-- A sample client with a running connection on which nothing was released
yet. -/
def demoClientRunning : ClientSet EsClient Nat where
  config := { Index := "T" }
  cli := some { running := true, releases := 0 }
  codec := demoCodec
  indexMatcher := [["T", "t"]]
  documentIdMatcher := []

end Elasticsearch

/-! ## Lemmas -/

namespace Elasticsearch

section Lemmas

variable {Conn Ev Hdr Ctx : Type} (c : ClientSet Conn Ev) (env : Env Ev Hdr Ctx)

/-! ### Substrings -/

theorem contains_mid (a needle b : String) : Contains (a ++ needle ++ b) needle := by
  unfold Contains
  rw [String.data_append, String.data_append]
  exact List.infix_append a.data needle.data b.data

theorem contains_suffix (a needle : String) : Contains (a ++ needle) needle := by
  unfold Contains
  rw [String.data_append]
  exact (List.suffix_append a.data needle.data).isInfix

/-! ### The scan for the first failing step -/

theorem firstFail_none_iff (l : List (Step Ev)) :
    firstFail c env l = none ↔ ∀ s ∈ l, s.failure c env = none := by
  induction l with
  | nil => simp [firstFail]
  | cons s rest ih =>
    cases hs : s.failure c env with
    | some e => simp [firstFail, hs]
    | none =>
      cases hr : firstFail c env rest with
      | none => simpa [firstFail, hs, hr] using ih.mp hr
      | some pe =>
        have : ¬ ∀ s ∈ rest, s.failure c env = none := fun h => by
          rw [ih.mpr h] at hr; cases hr
        simp [firstFail, hs, hr, this]

theorem firstFail_split (pre post : List (Step Ev)) (s : Step Ev) (e : GoError)
    (hpre : ∀ x ∈ pre, x.failure c env = none) (hs : s.failure c env = some e) :
    firstFail c env (pre ++ s :: post) = some (pre ++ [s], e) := by
  induction pre with
  | nil => simp [firstFail, hs]
  | cons x pre ih =>
    have hx : x.failure c env = none := hpre x (List.mem_cons_self _ _)
    have ih2 := ih (fun y hy => hpre y (List.mem_cons_of_mem _ hy))
    simp [firstFail, hx, ih2]

theorem firstFail_append_none (a b : List (Step Ev)) (ha : firstFail c env a = none) :
    firstFail c env (a ++ b) =
      (firstFail c env b).map (fun pe => (a ++ pe.1, pe.2)) := by
  induction a with
  | nil => cases hb : firstFail c env b <;> simp [hb]
  | cons x a ih =>
    have hx : x.failure c env = none :=
      (firstFail_none_iff c env (x :: a)).mp ha x (List.mem_cons_self _ _)
    have ha2 : firstFail c env a = none :=
      (firstFail_none_iff c env a).mpr fun y hy =>
        (firstFail_none_iff c env (x :: a)).mp ha y (List.mem_cons_of_mem _ hy)
    have ih2 := ih ha2
    cases hb : firstFail c env b with
    | none => simp [firstFail, hx, ih2, hb]
    | some pe => simp [firstFail, hx, ih2, hb]

theorem firstFail_append_some (a b : List (Step Ev)) (p : List (Step Ev)) (e : GoError)
    (ha : firstFail c env a = some (p, e)) :
    firstFail c env (a ++ b) = some (p, e) := by
  induction a generalizing p e with
  | nil => simp [firstFail] at ha
  | cons x a ih =>
    cases hx : x.failure c env with
    | some e2 =>
      simp only [firstFail, hx] at ha
      simp [firstFail, hx, ha]
    | none =>
      cases hr : firstFail c env a with
      | none => simp [firstFail, hx, hr] at ha
      | some pe =>
        obtain ⟨p2, e2⟩ := pe
        simp only [firstFail, hx, hr] at ha
        rw [List.cons_append, firstFail, hx]
        simp only [ih p2 e2 hr]
        exact ha

theorem firstFail_isInitial (l p : List (Step Ev)) (e : GoError)
    (h : firstFail c env l = some (p, e)) : p <+: l := by
  induction l generalizing p e with
  | nil => simp [firstFail] at h
  | cons x l ih =>
    cases hx : x.failure c env with
    | some e2 =>
      simp only [firstFail, hx, Option.some.injEq, Prod.mk.injEq] at h
      rw [← h.1]
      exact ⟨l, rfl⟩
    | none =>
      cases hr : firstFail c env l with
      | none => simp [firstFail, hx, hr] at h
      | some pe =>
        obtain ⟨p2, e2⟩ := pe
        simp only [firstFail, hx, hr, Option.some.injEq, Prod.mk.injEq] at h
        rw [← h.1]
        obtain ⟨t, ht⟩ := ih p2 e2 hr
        exact ⟨t, by simp [ht]⟩

/-! ### The loop body -/

theorem loopBody_of_firstFail_some (ev : Ev) (p : List (Step Ev)) (e : GoError)
    (h : firstFail c env (stepsOf c ev) = some (p, e)) :
    loopBody c env ev = (p.map (Step.call c env), .error e) := by
  unfold stepsOf at h
  unfold loopBody
  cases h1 : env.patternFormat (env.header ev) c.config.Index c.indexMatcher <;>
  cases h2 : c.codec ev <;>
  by_cases hd : c.config.DocumentId = "" <;>
  cases h3 : env.patternFormat (env.header ev) c.config.DocumentId c.documentIdMatcher <;>
  simp [firstFail, Step.failure, h1, h2, h3, hd] at h <;>
  simp [Step.call, h1, h2, h3, hd, ← h.1, ← h.2]

theorem loopBody_of_firstFail_none (ev : Ev)
    (h : firstFail c env (stepsOf c ev) = none) :
    ∃ op, loopBody c env ev = ((stepsOf c ev).map (Step.call c env), .ok op) := by
  unfold stepsOf at h ⊢
  unfold loopBody
  cases h1 : env.patternFormat (env.header ev) c.config.Index c.indexMatcher <;>
  cases h2 : c.codec ev <;>
  by_cases hd : c.config.DocumentId = "" <;>
  cases h3 : env.patternFormat (env.header ev) c.config.DocumentId c.documentIdMatcher <;>
  simp [firstFail, Step.failure, h1, h2, h3, hd] at h <;>
  simp [Step.call, h1, h2, h3, hd]

/-! ### Inversion of the loop body -/

theorem loopBody_ok (ev : Ev) (calls : List (Call Ev Hdr)) (op : BulkIndexRequest)
    (h : loopBody c env ev = (calls, .ok op)) :
    env.patternFormat (env.header ev) c.config.Index c.indexMatcher = .ok op.Index ∧
    c.codec ev = .ok op.Doc ∧
    op.Typ = (if c.config.Etype.length > 0 then some c.config.Etype else none) ∧
    (c.config.DocumentId ≠ "" → ∃ id,
      env.patternFormat (env.header ev) c.config.DocumentId c.documentIdMatcher = .ok id ∧
      op.Id = some id) ∧
    (c.config.DocumentId = "" → op.Id = none) := by
  unfold loopBody at h
  cases h1 : env.patternFormat (env.header ev) c.config.Index c.indexMatcher <;>
  cases h2 : c.codec ev <;>
  by_cases hd : c.config.DocumentId = "" <;>
  cases h3 : env.patternFormat (env.header ev) c.config.DocumentId c.documentIdMatcher <;>
  simp [h1, h2, h3, hd] at h <;>
  obtain ⟨-, rfl⟩ := h <;>
  by_cases ht : c.config.Etype.length > 0 <;>
  simp [ht, hd]

/-! ### The loop -/

theorem interleaved_cons (ev : Ev) (rest : List Ev) :
    interleaved c (ev :: rest) = stepsOf c ev ++ interleaved c rest := by
  simp [interleaved]

theorem loop_of_firstFail_some (batch : List Ev) (req : List BulkIndexRequest)
    (tr : List (Call Ev Hdr)) (p : List (Step Ev)) (e : GoError)
    (h : firstFail c env (interleaved c batch) = some (p, e)) :
    loop c env batch req tr = (tr ++ p.map (Step.call c env), .error e) := by
  induction batch generalizing req tr p e with
  | nil => simp [interleaved, firstFail] at h
  | cons ev rest ih =>
    rw [interleaved_cons] at h
    cases hb : firstFail c env (stepsOf c ev) with
    | some pe =>
      obtain ⟨p1, e1⟩ := pe
      rw [firstFail_append_some c env _ _ p1 e1 hb] at h
      simp only [Option.some.injEq, Prod.mk.injEq] at h
      obtain ⟨rfl, rfl⟩ := h
      simp [loop, loopBody_of_firstFail_some c env ev p1 e1 hb]
    | none =>
      rw [firstFail_append_none c env _ _ hb] at h
      cases hr : firstFail c env (interleaved c rest) with
      | none => simp [hr] at h
      | some pe =>
        obtain ⟨p2, e2⟩ := pe
        simp only [hr, Option.map_some', Option.some.injEq, Prod.mk.injEq] at h
        obtain ⟨rfl, rfl⟩ := h
        obtain ⟨op, hop⟩ := loopBody_of_firstFail_none c env ev hb
        simp [loop, hop, ih _ _ p2 e2 hr]

theorem loop_of_firstFail_none (batch : List Ev) (req : List BulkIndexRequest)
    (tr : List (Call Ev Hdr))
    (h : firstFail c env (interleaved c batch) = none) :
    ∃ ops, loop c env batch req tr =
        (tr ++ (interleaved c batch).map (Step.call c env), .ok (req ++ ops)) ∧
      List.Forall₂ (fun ev op => ∃ calls, loopBody c env ev = (calls, .ok op)) batch ops := by
  induction batch generalizing req tr with
  | nil => exact ⟨[], by simp [loop, interleaved], List.Forall₂.nil⟩
  | cons ev rest ih =>
    rw [interleaved_cons] at h
    have hall := (firstFail_none_iff c env _).mp h
    have hb : firstFail c env (stepsOf c ev) = none :=
      (firstFail_none_iff c env _).mpr fun s hs => hall s (List.mem_append_left _ hs)
    have hr : firstFail c env (interleaved c rest) = none :=
      (firstFail_none_iff c env _).mpr fun s hs => hall s (List.mem_append_right _ hs)
    obtain ⟨op, hop⟩ := loopBody_of_firstFail_none c env ev hb
    obtain ⟨ops, hops, hfa⟩ := ih (req ++ [op]) (tr ++ (stepsOf c ev).map (Step.call c env)) hr
    refine ⟨op :: ops, ?_, List.Forall₂.cons ⟨_, hop⟩ hfa⟩
    simp [loop, hop, hops, interleaved_cons]

/-! ### Reading the recorded calls -/

theorem submitted_append (a b : List (Call Ev Hdr)) :
    submitted (a ++ b) = submitted a ++ submitted b := by
  induction a with
  | nil => rfl
  | cons x a ih => cases x <;> simp [submitted, ih]

theorem submitted_map_call (p : List (Step Ev)) :
    submitted (p.map (Step.call c env)) = [] := by
  induction p with
  | nil => rfl
  | cons s p ih => cases s <;> simp [submitted, Step.call, ih]

theorem resolverCalls_append (a b : List (Call Ev Hdr)) :
    resolverCalls (a ++ b) = resolverCalls a ++ resolverCalls b := by
  induction a with
  | nil => rfl
  | cons x a ih => cases x <;> simp [resolverCalls, ih]

theorem encodeCalls_append (a b : List (Call Ev Hdr)) :
    encodeCalls (a ++ b) = encodeCalls a ++ encodeCalls b := by
  induction a with
  | nil => rfl
  | cons x a ih => cases x <;> simp [encodeCalls, ih]

theorem encodeCalls_map_call (p : List (Step Ev)) :
    encodeCalls (p.map (Step.call c env)) = p.filterMap Step.encoded? := by
  induction p with
  | nil => rfl
  | cons s p ih => cases s <;> simp [encodeCalls, Step.call, Step.encoded?, ih]

theorem encoded_interleaved (batch : List Ev) :
    (interleaved c batch).filterMap Step.encoded? = batch := by
  induction batch with
  | nil => rfl
  | cons ev rest ih =>
    rw [interleaved_cons, List.filterMap_append, ih]
    unfold stepsOf
    split <;> simp [Step.encoded?]

theorem resolverCalls_interleaved_noId (batch : List Ev) (hd : c.config.DocumentId = "") :
    resolverCalls ((interleaved c batch).map (Step.call c env)) =
      batch.map (fun ev => (env.header ev, c.config.Index, c.indexMatcher)) := by
  induction batch with
  | nil => rfl
  | cons ev rest ih =>
    rw [interleaved_cons, List.map_append, resolverCalls_append, ih]
    simp [stepsOf, hd, resolverCalls, Step.call]

/-! ### Assembly and submission -/

theorem assemble_of_firstFail_some (batch : List Ev) (p : List (Step Ev)) (e : GoError)
    (h : firstFail c env (interleaved c batch) = some (p, e)) :
    assemble c env batch = (p.map (Step.call c env), .error e) := by
  simpa [assemble] using loop_of_firstFail_some c env batch [] [] p e h

theorem assemble_of_firstFail_none (batch : List Ev)
    (h : firstFail c env (interleaved c batch) = none) :
    ∃ req, assemble c env batch = ((interleaved c batch).map (Step.call c env), .ok req) ∧
      List.Forall₂ (fun ev op => ∃ calls, loopBody c env ev = (calls, .ok op)) batch req := by
  simpa [assemble] using loop_of_firstFail_none c env batch [] [] h

theorem assemble_ok_inv (batch : List Ev) (req : List BulkIndexRequest)
    (h : (assemble c env batch).2 = .ok req) :
    assemble c env batch = ((interleaved c batch).map (Step.call c env), .ok req) ∧
      List.Forall₂ (fun ev op => ∃ calls, loopBody c env ev = (calls, .ok op)) batch req := by
  cases hf : firstFail c env (interleaved c batch) with
  | some pe =>
    obtain ⟨p, e⟩ := pe
    rw [assemble_of_firstFail_some c env batch p e hf] at h
    simp at h
  | none =>
    obtain ⟨req2, h2, hfa⟩ := assemble_of_firstFail_none c env batch hf
    rw [h2] at h
    simp only [Except.ok.injEq] at h
    subst h
    exact ⟨h2, hfa⟩

theorem bulkIndex_of_assemble_error (ctx : Ctx) (batch : List Ev) (tr : List (Call Ev Hdr))
    (e : GoError) (h : assemble c env batch = (tr, .error e)) :
    BulkIndex c env ctx batch = (tr, .returned (some e)) := by
  simp [BulkIndex, h]

theorem bulkIndex_trace_of_assemble_ok (ctx : Ctx) (batch : List Ev)
    (tr : List (Call Ev Hdr)) (req : List BulkIndexRequest)
    (h : assemble c env batch = (tr, .ok req)) :
    (BulkIndex c env ctx batch).1 = tr ++ [.bulkDo req] := by
  unfold BulkIndex
  rw [h]
  simp only []
  rcases hd : env.bulkDo ctx req with ⟨_ | ret, _ | err⟩
  · rfl
  · rfl
  · simp only []
    split <;> rfl
  · rfl

theorem forall₂_get {α β : Type} {R : α → β → Prop} {l₁ : List α} {l₂ : List β}
    (h : List.Forall₂ R l₁ l₂) :
    l₂.length = l₁.length ∧
      ∀ (k : Nat) (hk : k < l₁.length) (hr : k < l₂.length),
        R (l₁.get ⟨k, hk⟩) (l₂.get ⟨k, hr⟩) := by
  have := List.forall₂_iff_get.mp h
  exact ⟨this.1.symm, this.2⟩

theorem step_mem_interleaved (batch : List Ev) (ev : Ev) (s : Step Ev)
    (hev : ev ∈ batch) (hs : s ∈ stepsOf c ev) : s ∈ interleaved c batch := by
  unfold interleaved
  exact List.mem_flatMap.mpr ⟨ev, hev, hs⟩

end Lemmas

/-! ## Properties of `BulkIndex` and `Stop` -/

section Claims

variable {Conn Ev Hdr Ctx : Type}

/-- C1: if index resolution, encoding, or (with a document-id template
configured) document-id resolution fails for at least one event of the batch,
`BulkIndex` returns a non-nil error and `req.Do` is called zero times. -/
theorem bulkIndex_failure_aborts_before_submission
    (c : ClientSet Conn Ev) (env : Env Ev Hdr Ctx) (ctx : Ctx) (batch : List Ev)
    (h : ∃ ev ∈ batch,
      (∃ e, env.patternFormat (env.header ev) c.config.Index c.indexMatcher = .error e) ∨
      (∃ e, c.codec ev = .error e) ∨
      (c.config.DocumentId ≠ "" ∧ ∃ e,
        env.patternFormat (env.header ev) c.config.DocumentId c.documentIdMatcher =
          .error e)) :
    (∃ e, (BulkIndex c env ctx batch).2 = .returned (some e)) ∧
      (submitted (BulkIndex c env ctx batch).1).length = 0 := by
  obtain ⟨ev, hev, hfail⟩ := h
  have hs : ∃ s ∈ interleaved c batch, s.failure c env ≠ none := by
    rcases hfail with ⟨e, he⟩ | ⟨e, he⟩ | ⟨hd, e, he⟩
    · refine ⟨.index ev, step_mem_interleaved c batch ev _ hev ?_, by simp [Step.failure, he]⟩
      unfold stepsOf; split <;> simp
    · refine ⟨.encode ev, step_mem_interleaved c batch ev _ hev ?_, by simp [Step.failure, he]⟩
      unfold stepsOf; split <;> simp
    · refine ⟨.docId ev, step_mem_interleaved c batch ev _ hev ?_, by simp [Step.failure, he]⟩
      simp [stepsOf, hd]
  cases hf : firstFail c env (interleaved c batch) with
  | none =>
    obtain ⟨s, hs1, hs2⟩ := hs
    exact absurd ((firstFail_none_iff c env _).mp hf s hs1) hs2
  | some pe =>
    obtain ⟨p, e⟩ := pe
    have hb := bulkIndex_of_assemble_error c env ctx batch _ e
      (assemble_of_firstFail_some c env batch p e hf)
    rw [hb]
    exact ⟨⟨e, rfl⟩, by simp [submitted_map_call]⟩

/-- C2: when index resolution, encoding and document-id resolution succeed on
every event, `BulkIndex` calls `req.Do` exactly once, on a request with one
operation per event, whose k-th operation carries the index resolved from the
k-th event with the index template and index matcher and, as document, the bytes
the codec returned for the k-th event. -/
theorem bulkIndex_submits_one_request
    (c : ClientSet Conn Ev) (env : Env Ev Hdr Ctx) (ctx : Ctx) (batch : List Ev)
    (h : ∀ ev ∈ batch,
      (∃ idx, env.patternFormat (env.header ev) c.config.Index c.indexMatcher = .ok idx) ∧
      (∃ data, c.codec ev = .ok data) ∧
      (c.config.DocumentId ≠ "" → ∃ id,
        env.patternFormat (env.header ev) c.config.DocumentId c.documentIdMatcher = .ok id)) :
    ∃ req, submitted (BulkIndex c env ctx batch).1 = [req] ∧
      req.length = batch.length ∧
      ∀ (k : Nat) (hk : k < batch.length) (hr : k < req.length),
        env.patternFormat (env.header (batch.get ⟨k, hk⟩)) c.config.Index c.indexMatcher =
            .ok (req.get ⟨k, hr⟩).Index ∧
          c.codec (batch.get ⟨k, hk⟩) = .ok (req.get ⟨k, hr⟩).Doc := by
  have hf : firstFail c env (interleaved c batch) = none := by
    rw [firstFail_none_iff]
    intro s hs
    obtain ⟨ev, hev, hsev⟩ := List.mem_flatMap.mp hs
    obtain ⟨⟨idx, h1⟩, ⟨data, h2⟩, h3⟩ := h ev hev
    unfold stepsOf at hsev
    by_cases hd : c.config.DocumentId = ""
    · simp [hd] at hsev
      rcases hsev with rfl | rfl <;> simp [Step.failure, h1, h2]
    · obtain ⟨id, h3⟩ := h3 hd
      simp [hd] at hsev
      rcases hsev with rfl | rfl | rfl <;> simp [Step.failure, h1, h2, h3]
  obtain ⟨req, hreq, hfa⟩ := assemble_of_firstFail_none c env batch hf
  refine ⟨req, ?_, (forall₂_get hfa).1, ?_⟩
  · rw [bulkIndex_trace_of_assemble_ok c env ctx batch _ req hreq, submitted_append,
      submitted_map_call]
    rfl
  · intro k hk hr
    obtain ⟨calls, hc⟩ := (forall₂_get hfa).2 k hk hr
    have := loopBody_ok c env _ calls _ hc
    exact ⟨this.1, this.2.1⟩

/-- C3: in a successfully assembled request, with a non-empty document-id
template every operation carries the id obtained by resolving that template on
its event with the document-id matcher rules; with an empty document-id template
no operation carries an id and the only resolver calls are the index
resolutions, one per event. -/
theorem bulkIndex_document_id
    (c : ClientSet Conn Ev) (env : Env Ev Hdr Ctx) (ctx : Ctx) (batch : List Ev)
    (req : List BulkIndexRequest) (h : (assemble c env batch).2 = .ok req) :
    (c.config.DocumentId ≠ "" →
      ∀ (k : Nat) (hk : k < batch.length) (hr : k < req.length), ∃ id,
        env.patternFormat (env.header (batch.get ⟨k, hk⟩)) c.config.DocumentId
            c.documentIdMatcher = .ok id ∧
          (req.get ⟨k, hr⟩).Id = some id) ∧
    (c.config.DocumentId = "" →
      (∀ op ∈ req, op.Id = none) ∧
        resolverCalls (BulkIndex c env ctx batch).1 =
          batch.map (fun ev => (env.header ev, c.config.Index, c.indexMatcher))) := by
  obtain ⟨ha, hfa⟩ := assemble_ok_inv c env batch req h
  refine ⟨fun hd k hk hr => ?_, fun hd => ⟨fun op hop => ?_, ?_⟩⟩
  · obtain ⟨calls, hc⟩ := (forall₂_get hfa).2 k hk hr
    exact (loopBody_ok c env _ calls _ hc).2.2.2.1 hd
  · obtain ⟨i, rfl⟩ := List.mem_iff_get.mp hop
    have hk : i.1 < batch.length := (forall₂_get hfa).1 ▸ i.2
    obtain ⟨calls, hc⟩ := (forall₂_get hfa).2 i.1 hk i.2
    exact (loopBody_ok c env _ calls _ hc).2.2.2.2 hd
  · rw [bulkIndex_trace_of_assemble_ok c env ctx batch _ req ha, resolverCalls_append,
      resolverCalls_interleaved_noId c env batch hd]
    simp [resolverCalls]

/-- C4: when the request is assembled and `req.Do` returns a response without
transport error, `BulkIndex` returns, and the error it returns is nil exactly
when the response flag `Errors` is unset, whatever the items of the response. -/
theorem bulkIndex_nil_iff_flag_unset
    (c : ClientSet Conn Ev) (env : Env Ev Hdr Ctx) (ctx : Ctx) (batch : List Ev)
    (req : List BulkIndexRequest) (ret : BulkResponse)
    (ha : (assemble c env batch).2 = .ok req)
    (hd : env.bulkDo ctx req = (some ret, none)) :
    ∃ r, (BulkIndex c env ctx batch).2 = .returned r ∧ (r = none ↔ ret.Errors = false) := by
  obtain ⟨ha2, -⟩ := assemble_ok_inv c env batch req ha
  unfold BulkIndex
  rw [ha2]
  simp only [hd]
  cases he : ret.Errors <;> simp

/-- C5: when the request is assembled and the response has its flag `Errors`
set, `BulkIndex` returns an error whose message contains the output of
`json.Marshal` on the response. -/
theorem bulkIndex_flag_set_message
    (c : ClientSet Conn Ev) (env : Env Ev Hdr Ctx) (ctx : Ctx) (batch : List Ev)
    (req : List BulkIndexRequest) (ret : BulkResponse)
    (ha : (assemble c env batch).2 = .ok req)
    (hd : env.bulkDo ctx req = (some ret, none)) (he : ret.Errors = true) :
    ∃ e, (BulkIndex c env ctx batch).2 = .returned (some e) ∧
      Contains e.Error (env.marshal ret).1 := by
  obtain ⟨ha2, -⟩ := assemble_ok_inv c env batch req ha
  refine ⟨.fundamental ("request to elasticsearch response error: " ++ (env.marshal ret).1),
    ?_, contains_suffix _ _⟩
  unfold BulkIndex
  rw [ha2]
  simp [hd, he]

/-- C6: when the request is assembled and `req.Do` returns a transport error
`e`, `BulkIndex` returns exactly `e`, whatever response value comes with it,
and so never returns nil. -/
theorem bulkIndex_transport_error_unchanged
    (c : ClientSet Conn Ev) (env : Env Ev Hdr Ctx) (ctx : Ctx) (batch : List Ev)
    (req : List BulkIndexRequest) (ret : Option BulkResponse) (e : GoError)
    (ha : (assemble c env batch).2 = .ok req)
    (hd : env.bulkDo ctx req = (ret, some e)) :
    (BulkIndex c env ctx batch).2 = .returned (some e) ∧
      (BulkIndex c env ctx batch).2 ≠ .returned none := by
  obtain ⟨ha2, -⟩ := assemble_ok_inv c env batch req ha
  have : (BulkIndex c env ctx batch).2 = .returned (some e) := by
    unfold BulkIndex
    rw [ha2]
    simp [hd]
  rw [this]
  exact ⟨rfl, by simp⟩

/-- C7: `Stop` on a client whose connection was never established makes no
release call, performs no release and leaves the client as it is; a second
`Stop` after a first one leaves the same state and the same number of releases
as the first; on a running connection one `Stop` releases exactly once and so
do two consecutive `Stop`s; on a connection already stopped `Stop` changes
nothing. -/
theorem stop_idempotent_single_release (c : ClientSet EsClient Ev) :
    (c.cli = none →
      c.Stop EsClient.Stop = (c, 0) ∧ (c.Stop EsClient.Stop).1.releases = 0) ∧
    ((c.Stop EsClient.Stop).1.Stop EsClient.Stop).1 = (c.Stop EsClient.Stop).1 ∧
    ((c.Stop EsClient.Stop).1.Stop EsClient.Stop).1.releases =
      (c.Stop EsClient.Stop).1.releases ∧
    (∀ conn, c.cli = some conn → conn.running = true →
      (c.Stop EsClient.Stop).1.releases = conn.releases + 1 ∧
      ((c.Stop EsClient.Stop).1.Stop EsClient.Stop).1.releases = conn.releases + 1) ∧
    (∀ conn, c.cli = some conn → conn.running = false →
      (c.Stop EsClient.Stop).1 = c) := by
  have hidem : ∀ x : EsClient, x.Stop.Stop = x.Stop := by
    intro x
    cases hx : x.running <;> simp [EsClient.Stop, hx]
  have hfix : ((c.Stop EsClient.Stop).1.Stop EsClient.Stop).1 = (c.Stop EsClient.Stop).1 := by
    cases h : c.cli with
    | none => simp [ClientSet.Stop, h]
    | some conn => simp [ClientSet.Stop, h, hidem]
  refine ⟨fun h => ?_, hfix, by rw [hfix], fun conn h hr => ?_, fun conn h hr => ?_⟩
  · simp [ClientSet.Stop, ClientSet.releases, h]
  · rw [hfix]
    simp [ClientSet.Stop, ClientSet.releases, EsClient.Stop, h, hr]
  · cases c
    simp only at h
    subst h
    simp [ClientSet.Stop, EsClient.Stop, hr]

/-- C8 (amended): when the first failing step of the batch is an index
resolution failing with `e`, `BulkIndex` returns an error with cause `e` and
message `select index pattern error: ` followed by the message of `e`; when it
is a document-id resolution failing with `e`, the error has cause `e` and
message `format documentId <template> failed: ` followed by the message of `e`,
which names the document-id template. -/
theorem resolution_error_wrapping
    (c : ClientSet Conn Ev) (env : Env Ev Hdr Ctx) (ctx : Ctx) (batch : List Ev)
    (pre post : List (Step Ev)) (ev : Ev) (e : GoError) :
    (interleaved c batch = pre ++ .index ev :: post →
      (∀ x ∈ pre, x.failure c env = none) →
      env.patternFormat (env.header ev) c.config.Index c.indexMatcher = .error e →
      ∃ err, (BulkIndex c env ctx batch).2 = .returned (some err) ∧
        err.cause? = some e ∧
        err.Error = "select index pattern error" ++ ": " ++ e.Error) ∧
    (interleaved c batch = pre ++ .docId ev :: post →
      (∀ x ∈ pre, x.failure c env = none) →
      env.patternFormat (env.header ev) c.config.DocumentId c.documentIdMatcher = .error e →
      ∃ err, (BulkIndex c env ctx batch).2 = .returned (some err) ∧
        err.cause? = some e ∧
        err.Error = "format documentId " ++ c.config.DocumentId ++ " failed" ++ ": " ++ e.Error ∧
        Contains err.Error c.config.DocumentId) := by
  constructor
  · intro hsplit hpre he
    have hs : (Step.index ev).failure c env =
        some (.withMessage e "select index pattern error") := by simp [Step.failure, he]
    have hf := firstFail_split c env pre post _ _ hpre hs
    rw [← hsplit] at hf
    rw [bulkIndex_of_assemble_error c env ctx batch _ _ (assemble_of_firstFail_some c env _ _ _ hf)]
    exact ⟨_, rfl, rfl, rfl⟩
  · intro hsplit hpre he
    have hs : (Step.docId ev).failure c env =
        some (.withMessage e ("format documentId " ++ c.config.DocumentId ++ " failed")) := by
      simp [Step.failure, he]
    have hf := firstFail_split c env pre post _ _ hpre hs
    rw [← hsplit] at hf
    rw [bulkIndex_of_assemble_error c env ctx batch _ _ (assemble_of_firstFail_some c env _ _ _ hf)]
    refine ⟨_, rfl, rfl, rfl, ?_⟩
    show Contains
      ("format documentId " ++ c.config.DocumentId ++ " failed" ++ ": " ++ e.Error) _
    rw [String.append_assoc, String.append_assoc]
    exact contains_mid _ _ _

/-- C8, as stated, fails: on an index resolution failure the message of the
returned error contains neither the index template nor the string form of the
event; on a document-id resolution failure it does not contain the string form
of the event. -/
theorem resolution_error_message_omits_event :
    (BulkIndex demoClient demoEnv 0 [1]).2 =
      .returned (some (.withMessage (.leaf "x") "select index pattern error")) ∧
    (GoError.withMessage (.leaf "x") "select index pattern error").Error =
      "select index pattern error: x" ∧
    demoClient.config.Index = "T" ∧ demoEnv.string 1 = "E" ∧
    ¬ Contains "select index pattern error: x" "T" ∧
    ¬ Contains "select index pattern error: x" "E" ∧
    (BulkIndex demoClientId demoEnv 0 [4]).2 =
      .returned (some (.withMessage (.leaf "x") "format documentId D failed")) ∧
    (GoError.withMessage (.leaf "x") "format documentId D failed").Error =
      "format documentId D failed: x" ∧
    demoEnv.string 4 = "E" ∧
    ¬ Contains "format documentId D failed: x" "E" := by
  decide

/-- C9: when the first failing step of the batch is the encoding of an event,
failing with `e`, `BulkIndex` returns an error with cause `e` whose message
contains the string form of that event and the message of `e`; in every run the
events passed to the codec are an initial part of the batch, each passed once;
and every operation of an assembled request carries as document exactly the
bytes the codec returned for its event. -/
theorem encode_error_wrapping
    (c : ClientSet Conn Ev) (env : Env Ev Hdr Ctx) (ctx : Ctx) (batch : List Ev) :
    (∀ (pre post : List (Step Ev)) (ev : Ev) (e : GoError),
      interleaved c batch = pre ++ .encode ev :: post →
      (∀ x ∈ pre, x.failure c env = none) →
      c.codec ev = .error e →
      ∃ err, (BulkIndex c env ctx batch).2 = .returned (some err) ∧
        err.cause? = some e ∧
        Contains err.Error (env.string ev) ∧ Contains err.Error e.Error) ∧
    encodeCalls (BulkIndex c env ctx batch).1 <+: batch ∧
    (∀ req, (assemble c env batch).2 = .ok req →
      req.length = batch.length ∧
      ∀ (k : Nat) (hk : k < batch.length) (hr : k < req.length),
        c.codec (batch.get ⟨k, hk⟩) = .ok (req.get ⟨k, hr⟩).Doc) := by
  refine ⟨fun pre post ev e hsplit hpre he => ?_, ?_, fun req ha => ?_⟩
  · have hs : (Step.encode ev).failure c env =
        some (.withMessage e ("codec encode event: " ++ env.string ev ++ " error")) := by
      simp [Step.failure, he]
    have hf := firstFail_split c env pre post _ _ hpre hs
    rw [← hsplit] at hf
    rw [bulkIndex_of_assemble_error c env ctx batch _ _ (assemble_of_firstFail_some c env _ _ _ hf)]
    refine ⟨_, rfl, rfl, ?_, ?_⟩
    · show Contains
        ("codec encode event: " ++ env.string ev ++ " error" ++ ": " ++ e.Error) _
      rw [String.append_assoc, String.append_assoc]
      exact contains_mid _ _ _
    · exact contains_suffix _ _
  · cases hf : firstFail c env (interleaved c batch) with
    | some pe =>
      obtain ⟨p, e⟩ := pe
      rw [bulkIndex_of_assemble_error c env ctx batch _ _
        (assemble_of_firstFail_some c env _ _ _ hf), encodeCalls_map_call]
      have := (firstFail_isInitial c env _ p e hf).filterMap Step.encoded?
      rwa [encoded_interleaved] at this
    | none =>
      obtain ⟨req, hreq, -⟩ := assemble_of_firstFail_none c env batch hf
      rw [bulkIndex_trace_of_assemble_ok c env ctx batch _ req hreq, encodeCalls_append,
        encodeCalls_map_call, encoded_interleaved]
      simp [encodeCalls]
  · obtain ⟨-, hfa⟩ := assemble_ok_inv c env batch req ha
    refine ⟨(forall₂_get hfa).1, fun k hk hr => ?_⟩
    obtain ⟨calls, hc⟩ := (forall₂_get hfa).2 k hk hr
    exact (loopBody_ok c env _ calls _ hc).2.1

/-- C10: when, in the interleaved order of the steps of the batch, the steps
before `s` all succeed and `s` fails, `BulkIndex` returns the error of `s` and
the resolver and codec calls made are exactly those of the steps up to and
including `s`, with no submission. -/
theorem bulkIndex_first_failing_step
    (c : ClientSet Conn Ev) (env : Env Ev Hdr Ctx) (ctx : Ctx) (batch : List Ev)
    (pre post : List (Step Ev)) (s : Step Ev) (e : GoError)
    (hsplit : interleaved c batch = pre ++ s :: post)
    (hpre : ∀ x ∈ pre, x.failure c env = none)
    (hs : s.failure c env = some e) :
    BulkIndex c env ctx batch =
      ((pre ++ [s]).map (Step.call c env), .returned (some e)) := by
  have hf := firstFail_split c env pre post s e hpre hs
  rw [← hsplit] at hf
  exact bulkIndex_of_assemble_error c env ctx batch _ _
    (assemble_of_firstFail_some c env _ _ _ hf)

/-! ## The statements at concrete inputs -/

/-- A batch whose third event fails document-id resolution: an error comes back and nothing is submitted. -/
theorem bulkIndex_failure_aborts_before_submission_witness :
    demoEnv.patternFormat (demoEnv.header 4) demoClientId.config.DocumentId
        demoClientId.documentIdMatcher = .error (.leaf "x") ∧
      (∃ e, (BulkIndex demoClientId demoEnv 0 [0, 8, 4, 0]).2 = .returned (some e)) ∧
      (submitted (BulkIndex demoClientId demoEnv 0 [0, 8, 4, 0]).1).length = 0 :=
  ⟨by decide,
    bulkIndex_failure_aborts_before_submission demoClientId demoEnv 0 [0, 8, 4, 0]
      ⟨4, by decide, Or.inr (Or.inr ⟨by decide, .leaf "x", by decide⟩)⟩⟩

/-- A batch of two events that all resolve and encode: one request with two operations. -/
theorem bulkIndex_submits_one_request_witness :
    ∃ req, submitted (BulkIndex demoClientId demoEnv 0 [0, 8]).1 = [req] ∧
      req.length = [0, 8].length ∧
      ∀ (k : Nat) (hk : k < [0, 8].length) (hr : k < req.length),
        demoEnv.patternFormat (demoEnv.header ([0, 8].get ⟨k, hk⟩))
            demoClientId.config.Index demoClientId.indexMatcher =
            .ok (req.get ⟨k, hr⟩).Index ∧
          demoClientId.codec ([0, 8].get ⟨k, hk⟩) = .ok (req.get ⟨k, hr⟩).Doc :=
  bulkIndex_submits_one_request demoClientId demoEnv 0 [0, 8] (by
    intro ev hev
    simp only [List.mem_cons, List.mem_singleton, List.not_mem_nil, or_false] at hev
    rcases hev with rfl | rfl
    · exact ⟨⟨"T-a", by decide⟩, ⟨[0], by decide⟩, fun _ => ⟨"D-a", by decide⟩⟩
    · exact ⟨⟨"T-b", by decide⟩, ⟨[8], by decide⟩, fun _ => ⟨"D-b", by decide⟩⟩)

/-- The ids of the operations with and without a document-id template, on a batch of two events. -/
theorem bulkIndex_document_id_witness :
    (assemble demoClientId demoEnv [0, 8]).2 =
        .ok [⟨"T-a", [0], none, some "D-a"⟩, ⟨"T-b", [8], none, some "D-b"⟩] ∧
      (assemble demoClient demoEnv [0, 8]).2 =
        .ok [⟨"T-a", [0], none, none⟩, ⟨"T-b", [8], none, none⟩] ∧
      (∃ id, demoEnv.patternFormat (demoEnv.header 8) "D" [["D", "d"]] = .ok id ∧
        (BulkIndexRequest.mk "T-b" [8] none (some "D-b")).Id = some id) ∧
      resolverCalls (BulkIndex demoClient demoEnv 0 [0, 8]).1 =
        [(0, "T", [["T", "t"]]), (8, "T", [["T", "t"]])] :=
  ⟨by decide, by decide,
    (bulkIndex_document_id demoClientId demoEnv 0 [0, 8]
      [⟨"T-a", [0], none, some "D-a"⟩, ⟨"T-b", [8], none, some "D-b"⟩] (by decide)).1
      (by decide) 1 (by decide) (by decide),
    ((bulkIndex_document_id demoClient demoEnv 0 [0, 8] _
      (show (assemble demoClient demoEnv [0, 8]).2 =
        .ok [⟨"T-a", [0], none, none⟩, ⟨"T-b", [8], none, none⟩] by decide)).2
        (by decide)).2⟩

/-- A clean response on a batch of two events: the returned error is nil. -/
theorem bulkIndex_nil_iff_flag_unset_witness :
    (assemble demoClient demoEnv [0, 8]).2 =
        .ok [⟨"T-a", [0], none, none⟩, ⟨"T-b", [8], none, none⟩] ∧
      demoEnv.bulkDo 0 [⟨"T-a", [0], none, none⟩, ⟨"T-b", [8], none, none⟩] =
        (some ⟨1, false, [⟨"index", "T-a", "1", 201, "created"⟩,
          ⟨"index", "T-b", "1", 201, "created"⟩]⟩, none) ∧
      ∃ r, (BulkIndex demoClient demoEnv 0 [0, 8]).2 = .returned r ∧
        (r = none ↔ false = false) :=
  ⟨by decide, by decide,
    bulkIndex_nil_iff_flag_unset demoClient demoEnv 0 [0, 8]
      [⟨"T-a", [0], none, none⟩, ⟨"T-b", [8], none, none⟩]
      ⟨1, false, [⟨"index", "T-a", "1", 201, "created"⟩,
        ⟨"index", "T-b", "1", 201, "created"⟩]⟩ (by decide) (by decide)⟩

/-- A response with the error flag set: the message holds the serialized response. -/
theorem bulkIndex_flag_set_message_witness :
    demoEnv.bulkDo 1 [⟨"T-a", [0], none, none⟩] =
        (some ⟨1, true, [⟨"index", "T-a", "1", 409, "conflict"⟩]⟩, none) ∧
      ∃ e, (BulkIndex demoClient demoEnv 1 [0]).2 = .returned (some e) ∧
        Contains e.Error "errors=true" :=
  ⟨by decide,
    bulkIndex_flag_set_message demoClient demoEnv 1 [0] [⟨"T-a", [0], none, none⟩]
      ⟨1, true, [⟨"index", "T-a", "1", 409, "conflict"⟩]⟩ (by decide) (by decide) rfl⟩

/-- A cancelled submission that still comes with a response value: the transport error is returned as is. -/
theorem bulkIndex_transport_error_unchanged_witness :
    demoEnv.bulkDo 2 [⟨"T-a", [0], none, none⟩] =
        (some ⟨0, false, []⟩, some (.leaf "context canceled")) ∧
      (BulkIndex demoClient demoEnv 2 [0]).2 = .returned (some (.leaf "context canceled")) ∧
      (BulkIndex demoClient demoEnv 2 [0]).2 ≠ .returned none :=
  ⟨by decide,
    bulkIndex_transport_error_unchanged demoClient demoEnv 2 [0] [⟨"T-a", [0], none, none⟩]
      (some ⟨0, false, []⟩) (.leaf "context canceled") (by decide) (by decide)⟩

/-- Stop on a client without connection, and once and twice on a client with a running connection. -/
theorem stop_idempotent_single_release_witness :
    demoClientNil.Stop EsClient.Stop = (demoClientNil, 0) ∧
      (demoClientRunning.Stop EsClient.Stop).1.releases = 0 + 1 ∧
      ((demoClientRunning.Stop EsClient.Stop).1.Stop EsClient.Stop).1.releases = 0 + 1 ∧
      ((demoClientRunning.Stop EsClient.Stop).1.Stop EsClient.Stop).1 =
        (demoClientRunning.Stop EsClient.Stop).1 :=
  ⟨((stop_idempotent_single_release demoClientNil).1 rfl).1,
    ((stop_idempotent_single_release demoClientRunning).2.2.2.1
      { running := true, releases := 0 } rfl rfl).1,
    ((stop_idempotent_single_release demoClientRunning).2.2.2.1
      { running := true, releases := 0 } rfl rfl).2,
    (stop_idempotent_single_release demoClientRunning).2.1⟩

/-- An index resolution failure on the second event, and a document-id resolution failure on the second event. -/
theorem resolution_error_wrapping_witness :
    (∃ err, (BulkIndex demoClientId demoEnv 0 [0, 1]).2 = .returned (some err) ∧
        err.cause? = some (.leaf "x") ∧
        err.Error = "select index pattern error" ++ ": " ++ (GoError.leaf "x").Error) ∧
      (∃ err, (BulkIndex demoClientId demoEnv 0 [0, 4]).2 = .returned (some err) ∧
        err.cause? = some (.leaf "x") ∧
        err.Error = "format documentId " ++ demoClientId.config.DocumentId ++ " failed" ++
          ": " ++ (GoError.leaf "x").Error ∧
        Contains err.Error demoClientId.config.DocumentId) :=
  ⟨(resolution_error_wrapping demoClientId demoEnv 0 [0, 1]
      [.index 0, .encode 0, .docId 0] [.encode 1, .docId 1] 1 (.leaf "x")).1
      (by decide) (by decide) (by decide),
    (resolution_error_wrapping demoClientId demoEnv 0 [0, 4]
      [.index 0, .encode 0, .docId 0, .index 4, .encode 4] [] 4 (.leaf "x")).2
      (by decide) (by decide) (by decide)⟩

/-- An encoding failure on the second of three events, and an assembled batch of two events. -/
theorem encode_error_wrapping_witness :
    (∃ err, (BulkIndex demoClientId demoEnv 0 [0, 2, 1]).2 = .returned (some err) ∧
        err.cause? = some (.leaf "bad") ∧
        Contains err.Error (demoEnv.string 2) ∧ Contains err.Error (GoError.leaf "bad").Error) ∧
      encodeCalls (BulkIndex demoClientId demoEnv 0 [0, 2, 1]).1 <+: [0, 2, 1] ∧
      ([⟨"T-a", [0], none, some "D-a"⟩, ⟨"T-b", [8], none, some "D-b"⟩] :
          List BulkIndexRequest).length = [0, 8].length :=
  ⟨(encode_error_wrapping demoClientId demoEnv 0 [0, 2, 1]).1
      [.index 0, .encode 0, .docId 0, .index 2] [.docId 2, .index 1, .encode 1, .docId 1]
      2 (.leaf "bad") (by decide) (by decide) (by decide),
    (encode_error_wrapping demoClientId demoEnv 0 [0, 2, 1]).2.1,
    ((encode_error_wrapping demoClientId demoEnv 0 [0, 8]).2.2 _
      (show (assemble demoClientId demoEnv [0, 8]).2 =
        .ok [⟨"T-a", [0], none, some "D-a"⟩, ⟨"T-b", [8], none, some "D-b"⟩] by decide)).1⟩

/-- An earlier encoding failure wins over a later index failure; within one event the index failure wins over the others, and the encoding failure over the document-id failure. -/
theorem bulkIndex_first_failing_step_witness :
    BulkIndex demoClientId demoEnv 0 [0, 2, 1] =
        ([.patternFormat 0 "T" [["T", "t"]], .encode 0, .patternFormat 0 "D" [["D", "d"]],
          .patternFormat 2 "T" [["T", "t"]], .encode 2],
          .returned (some (.withMessage (.leaf "bad") "codec encode event: E2 error"))) ∧
      BulkIndex demoClientId demoEnv 0 [7] =
        ([.patternFormat 7 "T" [["T", "t"]]],
          .returned (some (.withMessage (.leaf "x") "select index pattern error"))) ∧
      BulkIndex demoClientId demoEnv 0 [6] =
        ([.patternFormat 6 "T" [["T", "t"]], .encode 6],
          .returned (some (.withMessage (.leaf "bad") "codec encode event: E error"))) :=
  ⟨bulkIndex_first_failing_step demoClientId demoEnv 0 [0, 2, 1]
      [.index 0, .encode 0, .docId 0, .index 2] [.docId 2, .index 1, .encode 1, .docId 1]
      (.encode 2) _ (by decide) (by decide) (by decide),
    bulkIndex_first_failing_step demoClientId demoEnv 0 [7]
      [] [.encode 7, .docId 7] (.index 7) _ (by decide) (by decide) (by decide),
    bulkIndex_first_failing_step demoClientId demoEnv 0 [6]
      [.index 6] [.docId 6] (.encode 6) _ (by decide) (by decide) (by decide)⟩

end Claims

end Elasticsearch
